import Mathlib

/-!
Verification of the library-management repository (backend.py, library_gui.py).

The Python backend keeps its catalog in an insertion-ordered dict
`isbn -> Book` and its reservation queues in a `defaultdict(deque)`
`isbn -> user_ids`.  We embed both as association lists (Python dicts are
insertion ordered); machine integers are `Int` (Python ints are unbounded);
`datetime` values are modelled as a calendar day number plus a time-of-day
component, since the code only ever adds whole days (`timedelta(days=14)`)
and compares `.date()` projections.  Functions that `raise` are embedded as
functions into a result type: every `raise` in the backend happens before
any mutation, so the erroring branches return no state.
-/

/-- Calendar day number plus time of day; `.date()` is the `day` projection.
Models Python `datetime` as used by the backend (only whole-day arithmetic
and `.date()` comparisons occur). -/
structure Datetime where
  day : Int
  tod : Nat
deriving DecidableEq, Repr

/-- Python `d + timedelta(days = n)`: shifts the calendar day, keeps the time of day. -/
def addDays (d : Datetime) (n : Int) : Datetime :=
  { d with day := d.day + n }

/-- The `Book.__init__` fields (backend.py lines 51-58). -/
structure Book where
  title : String
  author : String
  isbn : String
  genre : String
  total_copies : Int
  available_copies : Int
deriving DecidableEq, Repr

/-- Embeds `existing.total_copies += count; existing.available_copies += count`
(backend.py lines 78-79). -/
def addCounters (count : Int) (b : Book) : Book :=
  { b with total_copies := b.total_copies + count,
           available_copies := b.available_copies + count }

/-- Embeds `book.total_copies -= count; book.available_copies -= count`
(backend.py lines 92-93). -/
def subCounters (count : Int) (b : Book) : Book :=
  { b with total_copies := b.total_copies - count,
           available_copies := b.available_copies - count }

/-- Embeds `book.available_copies -= 1` (backend.py line 104). -/
def decAvail (b : Book) : Book :=
  { b with available_copies := b.available_copies - 1 }

/-- Embeds `book.available_copies += 1` (backend.py line 113). -/
def incAvail (b : Book) : Book :=
  { b with available_copies := b.available_copies + 1 }

/-- The `User.__init__` fields (backend.py lines 183-189); `borrowed_books` is the
`isbn -> due_date` dict, embedded as an insertion-ordered association list. -/
structure User where
  user_id : String
  name : String
  password : String
  borrowed_books : List (String × Datetime)
  reserved_books : List String
deriving DecidableEq, Repr

/-- The four custom exception classes of backend.py lines 34-48. -/
inductive LibError where
  | bookNotFound
  | bookNotAvailable
  | userLimitExceeded
  | reservationError
deriving DecidableEq, Repr

/-- Result of a backend call that may `raise`: every raise in the backend
happens before any mutation, so an error carries no state. -/
inductive Res (α : Type) where
  | ok : α → Res α
  | error : LibError → Res α
deriving DecidableEq, Repr

/-- First-match lookup in an association list; embeds Python dict lookup
(keys stay unique because insertion replaces in place). -/
def lookupA {β : Type} : List (String × β) → String → Option β
  | [], _ => none
  | (k, v) :: rest, i => if k = i then some v else lookupA rest i

/-- Apply `f` to the value at key `i` (first match), keep everything else;
embeds in-place mutation of the object stored in a Python dict. -/
def updateA {β : Type} (f : β → β) : List (String × β) → String → List (String × β)
  | [], _ => []
  | (k, v) :: rest, i => if k = i then (k, f v) :: rest else (k, v) :: updateA f rest i

/-- Python dict assignment `d[i] = v`: replace in place if present, else append. -/
def setA {β : Type} : List (String × β) → String → β → List (String × β)
  | [], i, v => [(i, v)]
  | (k, w) :: rest, i, v => if k = i then (k, v) :: rest else (k, w) :: setA rest i v

/-- Python `del d[i]`: drop the (first) entry at key `i`. -/
def eraseA {β : Type} : List (String × β) → String → List (String × β)
  | [], _ => []
  | (k, v) :: rest, i => if k = i then rest else (k, v) :: eraseA rest i

/-- Embeds `Library.__init__` (backend.py lines 70-73): the `_books` dict and the
`_reservations` defaultdict of deques.  Reading a missing queue yields `[]`
(see `resLookupL`); the defaultdict's creation of empty entries on read is
unobservable, so absent and empty queues are identified. -/
structure Library where
  books : List (String × Book)
  reservations : List (String × List String)
deriving DecidableEq, Repr

/-- Reading `self._reservations[isbn]`: missing keys default to the empty queue. -/
def resLookupL (lib : Library) (isbn : String) : List String :=
  (lookupA lib.reservations isbn).getD []

/-- A fresh `Library()`. -/
def emptyLibrary : Library :=
  { books := [], reservations := [] }

/-- Embeds `Library.add_book` (backend.py lines 75-84): top up an existing entry's
two counters, or (re)initialise both counters to `count` and insert. -/
def Library.add_book (lib : Library) (book : Book) (count : Int) : Library :=
  if (lookupA lib.books book.isbn).isSome then
    { lib with books := updateA (addCounters count) lib.books book.isbn }
  else
    let b' : Book := { book with total_copies := count, available_copies := count }
    { lib with books := lib.books ++ [(book.isbn, b')] }

/-- Embeds `Library.remove_book` (backend.py lines 86-96). -/
def Library.remove_book (lib : Library) (isbn : String) (count : Int) : Res Library :=
  match lookupA lib.books isbn with
  | none => .error .bookNotFound
  | some book =>
    if book.available_copies < count then .error .bookNotAvailable
    else if book.total_copies - count ≤ 0 then
      .ok { lib with books := eraseA lib.books isbn }
    else
      .ok { lib with books := updateA (subCounters count) lib.books isbn }

/-- Embeds `Library.lend_book` (backend.py lines 98-107): decrement the available
counter and hand back `datetime.now() + timedelta(days=14)`; the wall clock
is passed in as `now`.  `user_id` is only logged by the source. -/
def Library.lend_book (lib : Library) (isbn : String) (user_id : String)
    (now : Datetime) : Res (Library × Datetime) :=
  match lookupA lib.books isbn with
  | none => .error .bookNotFound
  | some book =>
    if book.available_copies ≤ 0 then .error .bookNotAvailable
    else
      let _ := user_id
      .ok ({ lib with books := updateA decAvail lib.books isbn }, addDays now 14)

/-- Embeds `Library.return_book` (backend.py lines 109-127).  Output also carries the
two printed effects: the fine (dollars, `days_late * 1`) if any, and the
notified user popped from the head of the reservation queue, if any. -/
def Library.return_book (lib : Library) (isbn : String) (user_obj : User)
    (return_date : Option Datetime) : Res (Library × Option Int × Option String) :=
  match lookupA lib.books isbn with
  | none => .error .bookNotFound
  | some _book =>
    let books' := updateA incAvail lib.books isbn
    let fine : Option Int :=
      match return_date with
      | none => none
      | some rd =>
        match lookupA user_obj.borrowed_books isbn with
        | none => none
        | some due =>
          if due.day < rd.day then some ((rd.day - due.day) * 1) else none
    match resLookupL lib isbn with
    | [] => .ok ({ books := books', reservations := lib.reservations }, fine, none)
    | next_user :: rest =>
      .ok ({ books := books', reservations := setA lib.reservations isbn rest },
           fine, some next_user)

/-- Embeds `Library.__iter__`/`__next__` (backend.py lines 129-139): the iterator
snapshots the catalog books with a positive available count, in order. -/
def iterBooks (lib : Library) : List Book :=
  (lib.books.map Prod.snd).filter (fun b => decide (0 < b.available_copies))

/-- Note `Library.search_by_author` (backend.py lines 153-154) is not claimed;
`Library.filter_by_genre` (backend.py lines 159-164) groups the available
books by genre: this is the per-genre projection of the returned dict, in
catalog order. -/
def filter_by_genre (lib : Library) (genre : String) : List Book :=
  (lib.books.map Prod.snd).filter
    (fun b => decide (0 < b.available_copies ∧ b.genre = genre))

/-- Embeds `Library.reserve_book` (backend.py lines 166-173): only a title with no
available copy may be reserved; the user id is appended to the tail of that
title's queue. -/
def Library.reserve_book (lib : Library) (isbn : String) (user_id : String) :
    Res Library :=
  match lookupA lib.books isbn with
  | none => .error .bookNotFound
  | some book =>
    if 0 < book.available_copies then .error .reservationError
    else
      let q := resLookupL lib isbn ++ [user_id]
      .ok { lib with reservations := setA lib.reservations isbn q }

/-- Embeds `default_borrow_limit` (backend.py line 181). -/
def default_borrow_limit : Nat := 5

/-- Embeds `LibrarySystem.lend_book` (backend.py lines 246-256) for the current
user; the `input()` isbn is a parameter, the `try/except` that prints the
error is embedded as the `Res` component, and the state components echo the
(unchanged, on error) library and user. -/
def LibrarySystem.lend_book (lib : Library) (u : User) (isbn : String)
    (now : Datetime) : Library × User × Res Datetime :=
  if default_borrow_limit ≤ u.borrowed_books.length then
    (lib, u, .error .userLimitExceeded)
  else
    match Library.lend_book lib isbn u.user_id now with
    | .error e => (lib, u, .error e)
    | .ok (lib', due) =>
      (lib', { u with borrowed_books := setA u.borrowed_books isbn due }, .ok due)

/-- Embeds `LibrarySystem.return_book` (backend.py lines 258-269): the CLI refuses
up front when the isbn is not among the user's borrowed books, and only
after a successful backend return deletes the borrowed entry. -/
def LibrarySystem.return_book (lib : Library) (u : User) (isbn : String)
    (now : Datetime) : Library × User :=
  if (lookupA u.borrowed_books isbn).isSome then
    match Library.return_book lib isbn u (some now) with
    | .error _ => (lib, u)
    | .ok (lib', _, _) => (lib', { u with borrowed_books := eraseA u.borrowed_books isbn })
  else
    (lib, u)

/-- Embeds `MainWidget._return_book` (library_gui.py lines 355-365): the GUI calls
the backend first and only then `del`s the borrowed entry; a missing entry
raises `KeyError`, caught by the surrounding `except` AFTER the library was
already mutated. -/
def MainWidget.return_book (lib : Library) (u : User) (isbn : String)
    (now : Datetime) : Library × User :=
  match Library.return_book lib isbn u (some now) with
  | .error _ => (lib, u)
  | .ok (lib', _, _) =>
    if (lookupA u.borrowed_books isbn).isSome then
      (lib', { u with borrowed_books := eraseA u.borrowed_books isbn })
    else
      (lib', u)

/-! ### Traces of `Library` mutator calls

The invariant and FIFO claims quantify over arbitrary call sequences on the
`Library` object, so we give the mutators a small-step trace semantics:
one constructor per mutator, each carrying that mutator's arguments. -/

/-- One call to a `Library` mutator, with its arguments. -/
inductive LibOp where
  | addBook (book : Book) (count : Int)
  | removeBook (isbn : String) (count : Int)
  | lendBook (isbn : String) (user_id : String) (now : Datetime)
  | returnBook (isbn : String) (user : User) (return_date : Option Datetime)
  | reserveBook (isbn : String) (user_id : String)
deriving DecidableEq, Repr

/-- Observable events of a successful mutator call: the lend/return counter
moves, a user being enqueued (`reserved`), and the printed head-of-queue
notification issued by `return_book` (`notified`). -/
inductive LibEvent where
  | lent (isbn : String)
  | returned (isbn : String)
  | reserved (isbn : String) (user_id : String)
  | notified (isbn : String) (user_id : String)
deriving DecidableEq, Repr

/-- Run one mutator call; a raised exception leaves the library unchanged
(every `raise` in backend.py precedes any mutation) and emits no event. -/
def applyOp (lib : Library) : LibOp → Library × List LibEvent
  | .addBook book count => (Library.add_book lib book count, [])
  | .removeBook isbn count =>
    match Library.remove_book lib isbn count with
    | .error _ => (lib, [])
    | .ok lib' => (lib', [])
  | .lendBook isbn uid now =>
    match Library.lend_book lib isbn uid now with
    | .error _ => (lib, [])
    | .ok (lib', _) => (lib', [.lent isbn])
  | .returnBook isbn user rd =>
    match Library.return_book lib isbn user rd with
    | .error _ => (lib, [])
    | .ok (lib', _, none) => (lib', [.returned isbn])
    | .ok (lib', _, some nu) => (lib', [.returned isbn, .notified isbn nu])
  | .reserveBook isbn uid =>
    match Library.reserve_book lib isbn uid with
    | .error _ => (lib, [])
    | .ok lib' => (lib', [.reserved isbn uid])

/-- Run a sequence of mutator calls, collecting the events in order. -/
def runOps (lib : Library) : List LibOp → Library × List LibEvent
  | [] => (lib, [])
  | op :: ops =>
    let (lib', evs) := applyOp lib op
    let (lib'', evs') := runOps lib' ops
    (lib'', evs ++ evs')

/-- Point update of a per-isbn integer counter. -/
def bump (out : String → Int) (isbn : String) (d : Int) : String → Int :=
  fun j => if j = isbn then out j + d else out j

/-- The all-zero outstanding-loan counter. -/
def zeroOut : String → Int := fun _ => 0

/-- Thread the outstanding-loan counter (successful lends minus successful
returns, per isbn) through an event list. -/
def outAfter (out : String → Int) : List LibEvent → String → Int
  | [] => out
  | .lent i :: es => outAfter (bump out i 1) es
  | .returned i :: es => outAfter (bump out i (-1)) es
  | .reserved _ _ :: es => outAfter out es
  | .notified _ _ :: es => outAfter out es

/-- Computes `true` iff every successful return in the event list is matched: at its
point in the trace, that isbn has strictly more successful lends than
successful returns so far. -/
def matchedEvents (out : String → Int) : List LibEvent → Bool
  | [] => true
  | .lent i :: es => matchedEvents (bump out i 1) es
  | .returned i :: es => decide (0 < out i) && matchedEvents (bump out i (-1)) es
  | .reserved _ _ :: es => matchedEvents out es
  | .notified _ _ :: es => matchedEvents out es

/-- Users enqueued for `isbn` over a trace, in order. -/
def reservedFor (isbn : String) : List LibEvent → List String :=
  List.filterMap fun e =>
    match e with
    | .reserved i u => if i = isbn then some u else none
    | _ => none

/-- Users notified for `isbn` over a trace, in order. -/
def notifiedFor (isbn : String) : List LibEvent → List String :=
  List.filterMap fun e =>
    match e with
    | .notified i u => if i = isbn then some u else none
    | _ => none

/-- Strengthened counter-bookkeeping invariant tying a library state to the
outstanding-loan counter: catalog keys are unique, each catalog entry has
`available + outstanding ≤ total`, the counter is nonnegative, and isbns
absent from the catalog have no outstanding loans. -/
def LibInv (lib : Library) (out : String → Int) : Prop :=
  (lib.books.map Prod.fst).Nodup ∧
  (∀ p ∈ lib.books, p.2.available_copies + out p.1 ≤ p.2.total_copies) ∧
  (∀ i, 0 ≤ out i) ∧
  (∀ i, lookupA lib.books i = none → out i = 0)

/-! ### Search: `Library.search_by_title` and its `difflib` fallback

`Library.search_by_title` (backend.py lines 146-151) returns the matching
`Book` records when the case-insensitive substring search hits, and
otherwise falls back to `difflib.get_close_matches(title, titles)`, a list
of title STRINGS.  `difflib` is the Python standard library, not repository
code; it is modelled below from CPython's `difflib.py` with two deviations:
the autojunk heuristic is omitted (it only activates for sequences of
length ≥ 200), and the float ratio comparisons are carried out exactly over
`Rat` (`2.0 * matches / length` versus `0.6`). -/

/-- Python `str.lower` over the characters (ASCII case mapping, which is
all the catalog data exercises). -/
def lowerChars (s : String) : List Char :=
  s.data.map Char.toLower

/-- Python `needle in hay` on strings: substring containment. -/
def containsSub (needle hay : List Char) : Bool :=
  hay.tails.any (fun t => needle.isPrefixOf t)

/-- Embeds `SequenceMatcher.b2j`: ascending positions of `c` in `b` (no junk). -/
def b2j (b : List Char) (c : Char) : List Nat :=
  (List.range b.length).filter (fun j => b.getD j c = c)

/-- One row of `SequenceMatcher.find_longest_match`'s dynamic program: fold
the in-window positions of `a[i]` in `b`, building the fresh `newj2len` row
from the previous row and updating the best block on strict improvement. -/
def flmRow (j2len : Int → Nat) (i : Nat) (js : List Nat) :
    (Int → Nat) × (Nat × Nat × Nat) → (Int → Nat) × (Nat × Nat × Nat) :=
  fun acc =>
    js.foldl
      (fun acc2 (j : Nat) =>
        let k := j2len ((j : Int) - 1) + 1
        let row' : Int → Nat := fun x => if x = (j : Int) then k else acc2.1 x
        let best := acc2.2
        (row', if best.2.2 < k then (i + 1 - k, j + 1 - k, k) else best))
      acc

/-- The dynamic-programming phase of `find_longest_match` over the window
`a[alo:ahi]`, `b[blo:bhi]`: returns `(besti, bestj, bestsize)`. -/
def flmCore (a b : List Char) (alo ahi blo bhi : Nat) : Nat × Nat × Nat :=
  let step := fun (acc : (Int → Nat) × (Nat × Nat × Nat)) (i : Nat) =>
    let js := (b2j b (a.getD i (Char.ofNat 0))).filter
      (fun j => decide (blo ≤ j) && decide (j < bhi))
    (flmRow acc.1 i js ((fun _ => 0), acc.2))
  ((List.range' alo (ahi - alo)).foldl step ((fun _ => 0), (alo, blo, 0))).2

/-- Embeds `find_longest_match`'s first extension loop (junk-free: `isbjunk` is
always false): grow the block downwards while the preceding characters
match.  Structural recursion on `besti`, which the loop strictly
decreases; at `besti = 0` the `alo < besti` guard fails. -/
def flmExtendLow (a b : List Char) (alo blo : Nat) (besti bestj bestsize : Nat) :
    Nat × Nat × Nat :=
  match besti with
  | 0 => (0, bestj, bestsize)
  | bi + 1 =>
    if alo < bi + 1 ∧ blo < bestj ∧
        a.getD bi (Char.ofNat 0) = b.getD (bestj - 1) (Char.ofNat 1) then
      flmExtendLow a b alo blo bi (bestj - 1) (bestsize + 1)
    else (bi + 1, bestj, bestsize)
termination_by structural besti

/-- Embeds `find_longest_match`'s second extension loop (junk-free): grow the block
upwards while the following characters match.  Fuelled: each iteration
requires `besti + bestsize < ahi`, so `ahi` fuel always suffices. -/
def flmExtendHigh (a b : List Char) (ahi bhi : Nat) (besti bestj : Nat)
    (fuel bestsize : Nat) : Nat :=
  match fuel with
  | 0 => bestsize
  | fl + 1 =>
    if besti + bestsize < ahi ∧ bestj + bestsize < bhi ∧
        a.getD (besti + bestsize) (Char.ofNat 0)
          = b.getD (bestj + bestsize) (Char.ofNat 1) then
      flmExtendHigh a b ahi bhi besti bestj fl (bestsize + 1)
    else bestsize
termination_by structural fuel

/-- Embeds `SequenceMatcher.find_longest_match` on the window, junk-free. -/
def findLongestMatch (a b : List Char) (alo ahi blo bhi : Nat) : Nat × Nat × Nat :=
  let (besti, bestj, bestsize) := flmCore a b alo ahi blo bhi
  let (besti, bestj, bestsize) := flmExtendLow a b alo blo besti bestj bestsize
  (besti, bestj, flmExtendHigh a b ahi bhi besti bestj ahi bestsize)

/-- Total size of the matching blocks (`get_matching_blocks` recursion,
fuelled: each recursive window is strictly smaller, so
`len(a) + len(b) + 1` fuel always suffices; merging adjacent blocks does
not change the total). -/
def matchSumAux (a b : List Char) (fuel alo ahi blo bhi : Nat) : Nat :=
  match fuel with
  | 0 => 0
  | fl + 1 =>
    let (i, j, k) := findLongestMatch a b alo ahi blo bhi
    if k = 0 then 0
    else k + matchSumAux a b fl alo i blo j + matchSumAux a b fl (i + k) ahi (j + k) bhi
termination_by structural fuel

/-- Computes `sum(size for block in get_matching_blocks)` for the full sequences. -/
def matchTotal (a b : List Char) : Nat :=
  matchSumAux a b (a.length + b.length + 1) 0 a.length 0 b.length

/-- Embeds `difflib._calculate_ratio`, exactly over `Rat`. -/
def calcRatioOf (m len : Nat) : Rat :=
  if len = 0 then 1 else 2 * (m : Rat) / (len : Rat)

/-- Embeds `SequenceMatcher.ratio` for `a` against `b`. -/
def ratioOf (a b : List Char) : Rat :=
  calcRatioOf (matchTotal a b) (a.length + b.length)

/-- Embeds `SequenceMatcher.quick_ratio`: multiset character intersection bound. -/
def quickRatioOf (a b : List Char) : Rat :=
  calcRatioOf ((a.dedup.map (fun c => min (a.count c) (b.count c))).sum)
    (a.length + b.length)

/-- Embeds `SequenceMatcher.real_quick_ratio`. -/
def realQuickRatioOf (a b : List Char) : Rat :=
  calcRatioOf (min a.length b.length) (a.length + b.length)

/-- The `heapq.nlargest`-compatible order on scored candidates: descending by
ratio, ties descending by the string itself (Python tuple comparison). -/
def scoredGE (p q : Rat × String) : Prop :=
  q.1 < p.1 ∨ (q.1 = p.1 ∧ ¬ p.2 < q.2)

instance : DecidableRel scoredGE := fun p q => by
  unfold scoredGE; infer_instance

/-- Embeds `difflib.get_close_matches(word, possibilities)` with the default
`n = 3`, `cutoff = 0.6` used by `Library.search_by_title`: keep the
candidates whose ratio beats the cutoff (the two quick upper bounds are
checked first, as in the source), take the 3 largest. -/
def get_close_matches (word : String) (possibilities : List String) : List String :=
  let cutoff : Rat := 6 / 10
  let w := word.data
  let scored := possibilities.filterMap fun x =>
    let xs := x.data
    if cutoff < realQuickRatioOf xs w ∧ cutoff < quickRatioOf xs w ∧
        cutoff < ratioOf xs w then
      some (ratioOf xs w, x)
    else none
  ((scored.insertionSort scoredGE).take 3).map Prod.snd

/-- The case-insensitive substring matches of `Library.search_by_title`
(backend.py line 147). -/
def matchingTitles (lib : Library) (title : String) : List Book :=
  (lib.books.map Prod.snd).filter
    (fun b => containsSub (lowerChars title) (lowerChars b.title))

/-- The catalog titles (backend.py line 150). -/
def titleList (lib : Library) : List String :=
  (lib.books.map Prod.snd).map Book.title

/-- Embeds `Library.search_by_title` (backend.py lines 146-151): `Book` records on
a substring hit, otherwise the `difflib` close-match title strings. -/
def search_by_title (lib : Library) (title : String) :
    Sum (List Book) (List String) :=
  let hits := matchingTitles lib title
  if hits.isEmpty then Sum.inr (get_close_matches title (titleList lib))
  else Sum.inl hits

/-! ### Concrete sample data for counterexamples and witnesses -/

/-- A sample physical book record as built by `Book.__init__`. -/
def sampleBook : Book :=
  { title := "1984", author := "George Orwell", isbn := "9780451524935",
    genre := "Dystopian Fiction", total_copies := 1, available_copies := 1 }

/-- A sample registered user with nothing borrowed. -/
def sampleUser : User :=
  { user_id := "u1", name := "Ada", password := "pw",
    borrowed_books := [], reserved_books := [] }

/-- A sample wall-clock instant. -/
def sampleNow : Datetime := { day := 100, tod := 0 }

/-- A one-book library: `add_book(sampleBook, 1)` on a fresh `Library()`. -/
def sampleLib : Library := Library.add_book emptyLibrary sampleBook 1

/-- A mutator sequence whose return is not matched by any prior lend:
one copy added, then a return of the same isbn. -/
def unmatchedOps : List LibOp :=
  [LibOp.addBook sampleBook 1, LibOp.returnBook "9780451524935" sampleUser none]

/-- A matched mutator sequence: two copies added, one lent, one returned. -/
def matchedOps : List LibOp :=
  [LibOp.addBook sampleBook 2, LibOp.lendBook "9780451524935" "u1" sampleNow,
   LibOp.returnBook "9780451524935" sampleUser none]

/-- A user currently borrowing `sampleBook`, due 14 days after `sampleNow`. -/
def borrowerUser : User :=
  { sampleUser with borrowed_books := [("9780451524935", addDays sampleNow 14)] }

/-- A return instant three days past `borrowerUser`'s due date. -/
def lateNow : Datetime := { day := 117, tod := 42 }

/-- A user already holding `default_borrow_limit` borrowed books. -/
def maxedUser : User :=
  { sampleUser with borrowed_books :=
      [("a", sampleNow), ("b", sampleNow), ("c", sampleNow),
       ("d", sampleNow), ("e", sampleNow)] }

/-- The state of `sampleLib` after its single copy was lent out: zero available copies. -/
def drainedLib : Library :=
  { books := [("9780451524935", { sampleBook with available_copies := 0 })],
    reservations := [] }

/-! ## Association-list lemmas -/

theorem lookupA_some_mem {β : Type} {l : List (String × β)} {i : String} {v : β}
    (h : lookupA l i = some v) : (i, v) ∈ l := by
  induction l with
  | nil => simp [lookupA] at h
  | cons hd tl ih =>
    obtain ⟨k, w⟩ := hd
    by_cases hk : k = i
    · subst hk
      simp [lookupA] at h
      simp [h]
    · simp [lookupA, hk] at h
      exact List.mem_cons_of_mem _ (ih h)

theorem lookupA_eq_none_iff {β : Type} (l : List (String × β)) (i : String) :
    lookupA l i = none ↔ i ∉ l.map Prod.fst := by
  induction l with
  | nil => simp [lookupA]
  | cons hd tl ih =>
    obtain ⟨k, w⟩ := hd
    by_cases hk : k = i
    · subst hk
      simp [lookupA]
    · simp [lookupA, hk, ih, Ne.symm hk]

theorem lookupA_updateA {β : Type} (f : β → β) (l : List (String × β)) (i j : String) :
    lookupA (updateA f l i) j = if j = i then (lookupA l i).map f else lookupA l j := by
  induction l with
  | nil => simp [lookupA, updateA]
  | cons hd tl ih =>
    obtain ⟨k, w⟩ := hd
    by_cases hk : k = i
    · by_cases hj : k = j
      · have hji : j = i := by rw [← hj, hk]
        simp [updateA, lookupA, hk, hj, hji]
      · have hji : ¬ j = i := by rw [← hk]; exact fun h => hj h.symm
        have hij : ¬ i = j := fun h => hji h.symm
        simp [updateA, lookupA, hk, hj, hji, hij]
    · by_cases hj : k = j
      · have hji : ¬ j = i := by rw [← hj]; exact hk
        simp [updateA, lookupA, hk, hj, hji]
      · simp [updateA, lookupA, hk, hj, ih]

theorem lookupA_setA {β : Type} (l : List (String × β)) (i : String) (v : β) (j : String) :
    lookupA (setA l i v) j = if j = i then some v else lookupA l j := by
  induction l with
  | nil =>
    by_cases hj : j = i
    · simp [lookupA, setA, hj]
    · have : ¬ i = j := fun h => hj h.symm
      simp [lookupA, setA, hj, this]
  | cons hd tl ih =>
    obtain ⟨k, w⟩ := hd
    by_cases hk : k = i
    · by_cases hj : k = j
      · have hji : j = i := by rw [← hj, hk]
        simp [setA, lookupA, hk, hj, hji]
      · have hji : ¬ j = i := by rw [← hk]; exact fun h => hj h.symm
        have hij : ¬ i = j := fun h => hji h.symm
        simp [setA, lookupA, hk, hj, hji, hij]
    · by_cases hj : k = j
      · have hji : ¬ j = i := by rw [← hj]; exact hk
        simp [setA, lookupA, hk, hj, hji]
      · simp [setA, lookupA, hk, hj, ih]

theorem lookupA_eraseA_ne {β : Type} (l : List (String × β)) {i j : String}
    (h : j ≠ i) : lookupA (eraseA l i) j = lookupA l j := by
  induction l with
  | nil => simp [eraseA]
  | cons hd tl ih =>
    obtain ⟨k, w⟩ := hd
    by_cases hk : k = i
    · have hkj : ¬ k = j := by rw [hk]; exact fun hc => h hc.symm
      have hij : ¬ i = j := fun hc => h hc.symm
      simp [eraseA, lookupA, hk, hkj, hij]
    · by_cases hj : k = j
      · have hji : ¬ j = i := by rw [← hj]; exact hk
        simp [eraseA, lookupA, hk, hj, hji]
      · simp [eraseA, lookupA, hk, hj, ih]

theorem mem_eraseA {β : Type} {l : List (String × β)} {i : String} {q : String × β}
    (h : q ∈ eraseA l i) : q ∈ l := by
  induction l with
  | nil => simp [eraseA] at h
  | cons hd tl ih =>
    obtain ⟨k, w⟩ := hd
    by_cases hk : k = i
    · subst hk
      simp [eraseA] at h
      exact List.mem_cons_of_mem _ h
    · simp [eraseA, hk] at h
      rcases h with h | h
      · simp [h]
      · exact List.mem_cons_of_mem _ (ih h)

theorem keys_updateA {β : Type} (f : β → β) (l : List (String × β)) (i : String) :
    (updateA f l i).map Prod.fst = l.map Prod.fst := by
  induction l with
  | nil => simp [updateA]
  | cons hd tl ih =>
    obtain ⟨k, w⟩ := hd
    by_cases hk : k = i <;> simp [updateA, hk, ih]

theorem keys_eraseA_sublist {β : Type} (l : List (String × β)) (i : String) :
    ((eraseA l i).map Prod.fst).Sublist (l.map Prod.fst) := by
  induction l with
  | nil => simp [eraseA]
  | cons hd tl ih =>
    obtain ⟨k, w⟩ := hd
    by_cases hk : k = i
    · simp [eraseA, hk]
    · simp only [eraseA, if_neg hk, List.map_cons, List.cons_sublist_cons]
      exact ih

theorem lookupA_append_none {β : Type} {l : List (String × β)} {i0 j : String} {v0 : β}
    (h : lookupA (l ++ [(i0, v0)]) j = none) : lookupA l j = none ∧ j ≠ i0 := by
  induction l with
  | nil =>
    by_cases hj : i0 = j
    · simp [lookupA, hj] at h
    · exact ⟨rfl, fun hc => hj hc.symm⟩
  | cons hd tl ih =>
    obtain ⟨k, w⟩ := hd
    by_cases hk : k = j
    · simp [lookupA, hk] at h
    · simp only [List.cons_append, lookupA, hk, if_false] at h ⊢
      exact ih h

theorem mem_updateA_nodup {β : Type} {l : List (String × β)} {i : String} {f : β → β}
    (hnd : (l.map Prod.fst).Nodup) {q : String × β} (h : q ∈ updateA f l i) :
    (q ∈ l ∧ q.1 ≠ i) ∨ (∃ v, lookupA l i = some v ∧ q = (i, f v)) := by
  induction l with
  | nil => simp [updateA] at h
  | cons hd tl ih =>
    obtain ⟨k, w⟩ := hd
    simp only [List.map_cons, List.nodup_cons] at hnd
    by_cases hk : k = i
    · subst hk
      simp only [updateA, if_pos rfl] at h
      rcases List.mem_cons.mp h with h | h
      · exact Or.inr ⟨w, by simp [lookupA], by simp [h]⟩
      · left
        refine ⟨List.mem_cons_of_mem _ h, ?_⟩
        intro hc
        exact hnd.1 (hc ▸ (List.mem_map_of_mem Prod.fst h))
    · simp only [updateA, if_neg hk] at h
      rcases List.mem_cons.mp h with h | h
      · exact Or.inl ⟨by simp [h], by simp [h, hk]⟩
      · rcases ih hnd.2 h with ⟨h1, h2⟩ | ⟨v, hv, hq⟩
        · exact Or.inl ⟨List.mem_cons_of_mem _ h1, h2⟩
        · exact Or.inr ⟨v, by simp [lookupA, hk, hv], hq⟩

/-! ## Event-threading lemmas -/

theorem outAfter_append (out : String → Int) (e₁ e₂ : List LibEvent) :
    outAfter out (e₁ ++ e₂) = outAfter (outAfter out e₁) e₂ := by
  induction e₁ generalizing out with
  | nil => simp [outAfter]
  | cons e rest ih => cases e <;> simp [outAfter, ih]

theorem matchedEvents_append (out : String → Int) (e₁ e₂ : List LibEvent) :
    matchedEvents out (e₁ ++ e₂)
      = (matchedEvents out e₁ && matchedEvents (outAfter out e₁) e₂) := by
  induction e₁ generalizing out with
  | nil => simp [matchedEvents, outAfter]
  | cons e rest ih => cases e <;> simp [matchedEvents, outAfter, ih, Bool.and_assoc]

/-! ## Preservation of the counter-bookkeeping invariant -/

theorem libInv_add_book {lib : Library} {out : String → Int} (hInv : LibInv lib out)
    (book : Book) (count : Int) : LibInv (Library.add_book lib book count) out := by
  obtain ⟨hnd, hle, hpos, hzero⟩ := hInv
  rcases hcase : lookupA lib.books book.isbn with _ | v
  · have hred : Library.add_book lib book count =
        { lib with books := lib.books ++
            [(book.isbn, { book with total_copies := count, available_copies := count })] } := by
      simp [Library.add_book, hcase]
    rw [hred]
    have hnotin : book.isbn ∉ lib.books.map Prod.fst :=
      (lookupA_eq_none_iff lib.books book.isbn).mp hcase
    refine ⟨?_, ?_, hpos, ?_⟩
    · simp only [List.map_append, List.map_cons, List.map_nil]
      exact List.nodup_append.mpr ⟨hnd, List.nodup_singleton _, by simpa using hnotin⟩
    · intro p hp
      rcases List.mem_append.mp hp with hin | hnew
      · exact hle p hin
      · simp only [List.mem_singleton] at hnew
        subst hnew
        have h0 : out book.isbn = 0 := hzero _ hcase
        simp [h0]
    · intro j hj
      exact hzero j (lookupA_append_none hj).1
  · have hsome : (lookupA lib.books book.isbn).isSome := by simp [hcase]
    have hred : Library.add_book lib book count =
        { lib with books := updateA (addCounters count) lib.books book.isbn } := by
      simp [Library.add_book, hcase]
    rw [hred]
    refine ⟨?_, ?_, hpos, ?_⟩
    · simpa [keys_updateA] using hnd
    · intro p hp
      rcases mem_updateA_nodup hnd hp with ⟨hin, _⟩ | ⟨w, hw, rfl⟩
      · exact hle p hin
      · have hv' := hle (book.isbn, w) (lookupA_some_mem hw)
        simp only [addCounters] at hv' ⊢
        linarith
    · intro j hj
      rw [lookupA_updateA] at hj
      by_cases hji : j = book.isbn
      · subst hji
        simp [hcase] at hj
      · simp only [if_neg hji] at hj
        exact hzero j hj

theorem libInv_remove_book {lib : Library} {out : String → Int} (hInv : LibInv lib out)
    {isbn : String} {count : Int} {lib' : Library}
    (h : Library.remove_book lib isbn count = .ok lib') : LibInv lib' out := by
  obtain ⟨hnd, hle, hpos, hzero⟩ := hInv
  rcases hcase : lookupA lib.books isbn with _ | book
  · simp [Library.remove_book, hcase] at h
  · have hmem := lookupA_some_mem hcase
    have hbook := hle (isbn, book) hmem
    simp only at hbook
    simp only [Library.remove_book, hcase] at h
    split_ifs at h with h1 h2
    · -- deletion branch: total - count ≤ 0 forces out isbn = 0
      simp only [Res.ok.injEq] at h
      subst h
      have hzout : out isbn = 0 := by
        have := hpos isbn
        omega
      refine ⟨?_, ?_, hpos, ?_⟩
      · exact (keys_eraseA_sublist lib.books isbn).nodup hnd
      · intro p hp
        exact hle p (mem_eraseA hp)
      · intro j hj
        by_cases hji : j = isbn
        · subst hji; exact hzout
        · rw [lookupA_eraseA_ne lib.books hji] at hj
          exact hzero j hj
    · -- in-place decrement branch
      simp only [Res.ok.injEq] at h
      subst h
      refine ⟨?_, ?_, hpos, ?_⟩
      · simpa [keys_updateA] using hnd
      · intro p hp
        rcases mem_updateA_nodup hnd hp with ⟨hin, _⟩ | ⟨w, hw, rfl⟩
        · exact hle p hin
        · have hv' := hle (isbn, w) (lookupA_some_mem hw)
          simp only [subCounters] at hv' ⊢
          linarith
      · intro j hj
        rw [lookupA_updateA] at hj
        by_cases hji : j = isbn
        · subst hji
          simp [hcase] at hj
        · simp only [if_neg hji] at hj
          exact hzero j hj

theorem libInv_lend_book {lib : Library} {out : String → Int} (hInv : LibInv lib out)
    {isbn uid : String} {now : Datetime} {lib' : Library} {due : Datetime}
    (h : Library.lend_book lib isbn uid now = .ok (lib', due)) :
    LibInv lib' (bump out isbn 1) := by
  obtain ⟨hnd, hle, hpos, hzero⟩ := hInv
  rcases hcase : lookupA lib.books isbn with _ | book
  · simp [Library.lend_book, hcase] at h
  · simp only [Library.lend_book, hcase] at h
    split_ifs at h with h1
    simp only [Res.ok.injEq, Prod.mk.injEq] at h
    obtain ⟨hlib, hdue⟩ := h
    subst hlib
    refine ⟨?_, ?_, ?_, ?_⟩
    · simpa [keys_updateA] using hnd
    · intro p hp
      rcases mem_updateA_nodup hnd hp with ⟨hin, hne⟩ | ⟨w, hw, rfl⟩
      · have := hle p hin
        simpa [bump, hne] using this
      · have hv' := hle (isbn, w) (lookupA_some_mem hw)
        simp [decAvail, bump] at hv' ⊢
        linarith
    · intro i
      have hpi := hpos i
      by_cases hi : i = isbn
      · subst hi
        simp only [bump, if_pos rfl]
        omega
      · simpa [bump, hi] using hpi
    · intro j hj
      rw [lookupA_updateA] at hj
      by_cases hji : j = isbn
      · subst hji
        simp [hcase] at hj
      · simp only [if_neg hji] at hj
        simp only [bump, if_neg hji]
        exact hzero j hj

theorem libInv_return_book {lib : Library} {out : String → Int} (hInv : LibInv lib out)
    {isbn : String} {u : User} {rd : Option Datetime} {lib' : Library}
    {fine : Option Int} {ntf : Option String}
    (hout : 0 < out isbn)
    (h : Library.return_book lib isbn u rd = .ok (lib', fine, ntf)) :
    LibInv lib' (bump out isbn (-1)) := by
  obtain ⟨hnd, hle, hpos, hzero⟩ := hInv
  rcases hcase : lookupA lib.books isbn with _ | book
  · simp [Library.return_book, hcase] at h
  · have hbooks : lib'.books = updateA incAvail lib.books isbn := by
      rcases hq : resLookupL lib isbn with _ | ⟨nu, rest⟩ <;>
        simp only [Library.return_book, hcase, hq] at h <;>
        simp only [Res.ok.injEq, Prod.mk.injEq] at h <;>
        rw [← h.1]
    refine ⟨?_, ?_, ?_, ?_⟩
    · rw [hbooks]
      simpa [keys_updateA] using hnd
    · intro p hp
      rw [hbooks] at hp
      rcases mem_updateA_nodup hnd hp with ⟨hin, hne⟩ | ⟨w, hw, rfl⟩
      · have := hle p hin
        simpa [bump, hne] using this
      · have hv' := hle (isbn, w) (lookupA_some_mem hw)
        simp [incAvail, bump] at hv' ⊢
        linarith
    · intro i
      have hpi := hpos i
      by_cases hi : i = isbn
      · subst hi
        simp only [bump, if_pos rfl]
        omega
      · simpa [bump, hi] using hpi
    · intro j hj
      rw [hbooks, lookupA_updateA] at hj
      by_cases hji : j = isbn
      · subst hji
        simp [hcase] at hj
      · simp only [if_neg hji] at hj
        simp only [bump, if_neg hji]
        exact hzero j hj

theorem libInv_reserve_book {lib : Library} {out : String → Int} (hInv : LibInv lib out)
    {isbn uid : String} {lib' : Library}
    (h : Library.reserve_book lib isbn uid = .ok lib') : LibInv lib' out := by
  obtain ⟨hnd, hle, hpos, hzero⟩ := hInv
  rcases hcase : lookupA lib.books isbn with _ | book
  · simp [Library.reserve_book, hcase] at h
  · simp only [Library.reserve_book, hcase] at h
    split_ifs at h with h1
    simp only [Res.ok.injEq] at h
    subst h
    exact ⟨hnd, hle, hpos, hzero⟩

theorem libInv_applyOp {lib : Library} {out : String → Int} (hInv : LibInv lib out)
    (op : LibOp) (hm : matchedEvents out (applyOp lib op).2 = true) :
    LibInv (applyOp lib op).1 (outAfter out (applyOp lib op).2) := by
  cases op with
  | addBook book count =>
    simpa [applyOp, outAfter] using libInv_add_book hInv book count
  | removeBook isbn count =>
    rcases hres : Library.remove_book lib isbn count with lib' | e
    · simpa [applyOp, hres, outAfter] using libInv_remove_book hInv hres
    · simpa [applyOp, hres, outAfter] using hInv
  | lendBook isbn uid now =>
    rcases hres : Library.lend_book lib isbn uid now with ⟨lib', due⟩ | e
    · simpa [applyOp, hres, outAfter] using libInv_lend_book hInv hres
    · simpa [applyOp, hres, outAfter] using hInv
  | returnBook isbn user rd =>
    rcases hres : Library.return_book lib isbn user rd with ⟨lib', fine, ntf⟩ | e
    · rcases ntf with _ | nu
      · have hout : 0 < out isbn := by
          simp [applyOp, hres, matchedEvents] at hm
          exact hm
        simpa [applyOp, hres, outAfter] using libInv_return_book hInv hout hres
      · have hout : 0 < out isbn := by
          simp [applyOp, hres, matchedEvents] at hm
          exact hm
        simpa [applyOp, hres, outAfter] using libInv_return_book hInv hout hres
    · simpa [applyOp, hres, outAfter] using hInv
  | reserveBook isbn uid =>
    rcases hres : Library.reserve_book lib isbn uid with lib' | e
    · simpa [applyOp, hres, outAfter] using libInv_reserve_book hInv hres
    · simpa [applyOp, hres, outAfter] using hInv

theorem libInv_runOps (ops : List LibOp) {lib : Library} {out : String → Int}
    (hInv : LibInv lib out) (hm : matchedEvents out (runOps lib ops).2 = true) :
    LibInv (runOps lib ops).1 (outAfter out (runOps lib ops).2) := by
  induction ops generalizing lib out with
  | nil => simpa [runOps, outAfter] using hInv
  | cons op ops ih =>
    have hrun : runOps lib (op :: ops)
        = ((runOps (applyOp lib op).1 ops).1,
           (applyOp lib op).2 ++ (runOps (applyOp lib op).1 ops).2) := by
      simp [runOps]
    rw [hrun] at hm ⊢
    simp only [matchedEvents_append, Bool.and_eq_true] at hm
    have h1 := libInv_applyOp hInv op hm.1
    have h2 := ih h1 hm.2
    simpa [outAfter_append] using h2

/-! ## Reservation-queue bookkeeping per operation -/

theorem add_book_reservations (lib : Library) (book : Book) (count : Int) :
    (Library.add_book lib book count).reservations = lib.reservations := by
  unfold Library.add_book
  split <;> rfl

theorem remove_book_reservations {lib : Library} {isbn : String} {count : Int}
    {lib' : Library} (h : Library.remove_book lib isbn count = .ok lib') :
    lib'.reservations = lib.reservations := by
  rcases hcase : lookupA lib.books isbn with _ | book
  · simp [Library.remove_book, hcase] at h
  · simp only [Library.remove_book, hcase] at h
    split_ifs at h <;> simp only [Res.ok.injEq] at h <;> subst h <;> rfl

theorem lend_book_reservations {lib : Library} {isbn uid : String} {now : Datetime}
    {lib' : Library} {due : Datetime}
    (h : Library.lend_book lib isbn uid now = .ok (lib', due)) :
    lib'.reservations = lib.reservations := by
  rcases hcase : lookupA lib.books isbn with _ | book
  · simp [Library.lend_book, hcase] at h
  · simp only [Library.lend_book, hcase] at h
    split_ifs at h with h1
    simp only [Res.ok.injEq, Prod.mk.injEq] at h
    rw [← h.1]

theorem return_book_resCases {lib : Library} {isbn : String} {u : User}
    {rd : Option Datetime} {lib' : Library} {fine : Option Int} {ntf : Option String}
    (h : Library.return_book lib isbn u rd = .ok (lib', fine, ntf)) :
    (ntf = none ∧ resLookupL lib isbn = [] ∧ lib'.reservations = lib.reservations) ∨
    (∃ nu rest, ntf = some nu ∧ resLookupL lib isbn = nu :: rest ∧
      lib'.reservations = setA lib.reservations isbn rest) := by
  rcases hcase : lookupA lib.books isbn with _ | book
  · simp [Library.return_book, hcase] at h
  · rcases hq : resLookupL lib isbn with _ | ⟨nu, rest⟩ <;>
      simp only [Library.return_book, hcase, hq] at h <;>
      simp only [Res.ok.injEq, Prod.mk.injEq] at h
    · exact Or.inl ⟨h.2.2.symm, rfl, by rw [← h.1]⟩
    · exact Or.inr ⟨nu, rest, h.2.2.symm, rfl, by rw [← h.1]⟩

theorem reserve_book_ok_shape {lib : Library} {isbn uid : String} {lib' : Library}
    (h : Library.reserve_book lib isbn uid = .ok lib') :
    lib'.books = lib.books ∧
      lib'.reservations = setA lib.reservations isbn (resLookupL lib isbn ++ [uid]) := by
  rcases hcase : lookupA lib.books isbn with _ | book
  · simp [Library.reserve_book, hcase] at h
  · simp only [Library.reserve_book, hcase] at h
    split_ifs at h with h1
    simp only [Res.ok.injEq] at h
    subst h
    exact ⟨rfl, rfl⟩

theorem notifiedFor_append (isbn : String) (e₁ e₂ : List LibEvent) :
    notifiedFor isbn (e₁ ++ e₂) = notifiedFor isbn e₁ ++ notifiedFor isbn e₂ := by
  simp [notifiedFor]

theorem reservedFor_append (isbn : String) (e₁ e₂ : List LibEvent) :
    reservedFor isbn (e₁ ++ e₂) = reservedFor isbn e₁ ++ reservedFor isbn e₂ := by
  simp [reservedFor]

theorem fifo_applyOp (lib : Library) (op : LibOp) (isbn : String) :
    notifiedFor isbn (applyOp lib op).2 ++ resLookupL (applyOp lib op).1 isbn
      = resLookupL lib isbn ++ reservedFor isbn (applyOp lib op).2 := by
  cases op with
  | addBook book count =>
    simp [applyOp, notifiedFor, reservedFor, resLookupL, add_book_reservations]
  | removeBook isbn' count =>
    rcases hres : Library.remove_book lib isbn' count with lib' | e
    · simp [applyOp, hres, notifiedFor, reservedFor, resLookupL,
        remove_book_reservations hres]
    · simp [applyOp, hres, notifiedFor, reservedFor]
  | lendBook isbn' uid now =>
    rcases hres : Library.lend_book lib isbn' uid now with ⟨lib', due⟩ | e
    · simp [applyOp, hres, notifiedFor, reservedFor, resLookupL,
        lend_book_reservations hres]
    · simp [applyOp, hres, notifiedFor, reservedFor]
  | returnBook isbn' user rd =>
    rcases hres : Library.return_book lib isbn' user rd with ⟨lib', fine, ntf⟩ | e
    · rcases return_book_resCases hres with ⟨hn, hq, hres'⟩ | ⟨nu, rest, hn, hq, hres'⟩
      · subst hn
        simp [applyOp, hres, notifiedFor, reservedFor, resLookupL, hres']
      · subst hn
        by_cases hii : isbn' = isbn
        · subst hii
          simp [applyOp, hres, notifiedFor, reservedFor, resLookupL, hres',
            lookupA_setA, hq]
          simpa [resLookupL] using hq.symm
        · simp [applyOp, hres, notifiedFor, reservedFor, resLookupL, hres',
            lookupA_setA, hii]
          simp [Ne.symm hii]
    · simp [applyOp, hres, notifiedFor, reservedFor]
  | reserveBook isbn' uid =>
    rcases hres : Library.reserve_book lib isbn' uid with lib' | e
    · obtain ⟨_, hres'⟩ := reserve_book_ok_shape hres
      by_cases hii : isbn' = isbn
      · subst hii
        simp [applyOp, hres, notifiedFor, reservedFor, resLookupL, hres', lookupA_setA]
      · simp [applyOp, hres, notifiedFor, reservedFor, resLookupL, hres',
          lookupA_setA, hii]
        simp [Ne.symm hii]
    · simp [applyOp, hres, notifiedFor, reservedFor]

theorem fifo_runOps (ops : List LibOp) (lib : Library) (isbn : String) :
    notifiedFor isbn (runOps lib ops).2 ++ resLookupL (runOps lib ops).1 isbn
      = resLookupL lib isbn ++ reservedFor isbn (runOps lib ops).2 := by
  induction ops generalizing lib with
  | nil => simp [runOps, notifiedFor, reservedFor]
  | cons op ops ih =>
    have hrun : runOps lib (op :: ops)
        = ((runOps (applyOp lib op).1 ops).1,
           (applyOp lib op).2 ++ (runOps (applyOp lib op).1 ops).2) := by
      simp [runOps]
    rw [hrun]
    simp only [notifiedFor_append, reservedFor_append]
    rw [List.append_assoc, ih (applyOp lib op).1, ← List.append_assoc,
      fifo_applyOp lib op isbn, List.append_assoc]

/-! ## Claim C1 -/

/-- C1, counterexample: the claim fails as stated.  `Library.return_book`
increments `available_copies` without an upper bound, so the two-call
sequence `add_book(sampleBook, 1); return_book("9780451524935", ...)` on an
empty library produces a catalog book with `available_copies = 2 >
1 = total_copies`. -/
theorem unmatched_return_breaks_counter_invariant :
    ¬ (∀ ops : List LibOp, ∀ p ∈ (runOps emptyLibrary ops).1.books,
        p.2.available_copies ≤ p.2.total_copies) := by
  intro h
  exact absurd (h unmatchedOps) (by decide)

/-- C1 (amended): for every sequence of `Library` mutator calls starting
from an empty library in which every successful `return_book` is matched —
at its point in the trace its isbn has strictly more successful lends than
successful returns — every catalog book satisfies
`available_copies ≤ total_copies` afterwards (and hence after each
operation, since every prefix of a matched trace is matched). -/
theorem counter_invariant_of_matched_traces (ops : List LibOp)
    (h : matchedEvents zeroOut (runOps emptyLibrary ops).2 = true) :
    ∀ p ∈ (runOps emptyLibrary ops).1.books,
      p.2.available_copies ≤ p.2.total_copies := by
  have h0 : LibInv emptyLibrary zeroOut :=
    ⟨by simp [emptyLibrary], by simp [emptyLibrary],
     fun i => le_refl 0, fun i _ => rfl⟩
  have hrun := libInv_runOps ops h0 h
  intro p hp
  have h1 := hrun.2.1 p hp
  have h2 := hrun.2.2.1 p.1
  linarith

/-- Witness for C1: `matchedOps` (add two copies, lend one, return it) is a
matched trace, and the conclusion holds on its final state. -/
theorem counter_invariant_of_matched_traces_witness :
    matchedEvents zeroOut (runOps emptyLibrary matchedOps).2 = true ∧
    ∀ p ∈ (runOps emptyLibrary matchedOps).1.books,
      p.2.available_copies ≤ p.2.total_copies :=
  ⟨by decide, counter_invariant_of_matched_traces matchedOps (by decide)⟩

/-! ## Claim C2 -/

/-- C2: reservations are served first come, first served.  Over any
sequence of `Library` mutator calls from an empty library, for every isbn,
the users notified by `return_book` (in order) followed by the users still
queued equal exactly the users whose `reserve_book` succeeded, in
reservation order: `reserve_book` appends to the tail and `return_book`
notifies the head, so notifications happen in reservation order. -/
theorem reservation_queue_fifo (ops : List LibOp) (isbn : String) :
    notifiedFor isbn (runOps emptyLibrary ops).2
        ++ resLookupL (runOps emptyLibrary ops).1 isbn
      = reservedFor isbn (runOps emptyLibrary ops).2 := by
  have h := fifo_runOps ops emptyLibrary isbn
  simpa [resLookupL, emptyLibrary, lookupA] using h

/-! ## Claim C3 -/

/-- C3: `reserve_book` raises `BookNotFoundError` iff the isbn is not in
the catalog, raises `ReservationError` iff the book exists with
`available_copies > 0`, and succeeds — appending the user to that isbn's
queue and touching nothing else — exactly when the book exists with
`available_copies == 0` (the hypothesis, satisfied by every state the
front ends can reach, rules out negative counters); on either error the
catalog and every reservation queue are unchanged. -/
theorem reserve_book_spec (lib : Library) (isbn uid : String)
    (h : ∀ b, lookupA lib.books isbn = some b → 0 ≤ b.available_copies) :
    (Library.reserve_book lib isbn uid = .error .bookNotFound ↔
      lookupA lib.books isbn = none) ∧
    (Library.reserve_book lib isbn uid = .error .reservationError ↔
      ∃ b, lookupA lib.books isbn = some b ∧ 0 < b.available_copies) ∧
    ((∃ lib', Library.reserve_book lib isbn uid = .ok lib') ↔
      ∃ b, lookupA lib.books isbn = some b ∧ b.available_copies = 0) ∧
    (∀ lib', Library.reserve_book lib isbn uid = .ok lib' →
      lib'.books = lib.books ∧
      resLookupL lib' isbn = resLookupL lib isbn ++ [uid] ∧
      ∀ j, j ≠ isbn → resLookupL lib' j = resLookupL lib j) ∧
    (∀ e, Library.reserve_book lib isbn uid = .error e →
      applyOp lib (.reserveBook isbn uid) = (lib, [])) := by
  rcases hcase : lookupA lib.books isbn with _ | book
  · refine ⟨by simp [Library.reserve_book, hcase], by simp [Library.reserve_book, hcase],
      ?_, ?_, ?_⟩
    · simp [Library.reserve_book, hcase]
    · intro lib' hl
      simp [Library.reserve_book, hcase] at hl
    · intro e he
      simp [applyOp, Library.reserve_book, hcase]
  · have hb := h book hcase
    by_cases h1 : 0 < book.available_copies
    · have hred : Library.reserve_book lib isbn uid = .error .reservationError := by
        simp [Library.reserve_book, hcase, h1]
      refine ⟨by simp [hred], ?_, ?_, ?_, ?_⟩
      · simp only [hred]
        constructor
        · intro _
          exact ⟨book, rfl, h1⟩
        · intro _
          simp
      · simp only [hred]
        constructor
        · rintro ⟨lib', hl⟩
          exact absurd hl (by simp)
        · rintro ⟨b, hbe, hb0⟩
          obtain rfl := Option.some.inj hbe
          exfalso
          omega
      · intro lib' hl
        rw [hred] at hl
        exact absurd hl (by simp)
      · intro e he
        simp [applyOp, hred]
    · have hzero : book.available_copies = 0 := le_antisymm (not_lt.mp h1) hb
      have hred : Library.reserve_book lib isbn uid
          = .ok { books := lib.books, reservations := setA lib.reservations isbn (resLookupL lib isbn ++ [uid]) } := by
        simp [Library.reserve_book, hcase, h1]
      refine ⟨by simp [hred], ?_, ?_, ?_, ?_⟩
      · simp only [hred]
        constructor
        · intro hl
          exact absurd hl (by simp)
        · rintro ⟨b, hbe, hb0⟩
          obtain rfl := Option.some.inj hbe
          exfalso
          omega
      · constructor
        · intro _
          exact ⟨book, rfl, hzero⟩
        · intro _
          exact ⟨_, hred⟩
      · intro lib' hl
        rw [hred] at hl
        simp only [Res.ok.injEq] at hl
        subst hl
        refine ⟨rfl, ?_, ?_⟩
        · simp [resLookupL, lookupA_setA]
        · intro j hj
          simp [resLookupL, lookupA_setA, hj]
      · intro e he
        rw [hred] at he
        exact absurd he (by simp)

/-- Witness for C3 at `drainedLib` (the catalog contains the isbn with zero
available copies): reserving succeeds and appends the user. -/
theorem reserve_book_spec_witness :
    (∃ lib', Library.reserve_book drainedLib "9780451524935" "u2" = .ok lib') ∧
    (∀ b, lookupA drainedLib.books "9780451524935" = some b →
      0 ≤ b.available_copies) :=
  ⟨((reserve_book_spec drainedLib "9780451524935" "u2" (by decide)).2.2.1).mpr
      ⟨{ sampleBook with available_copies := 0 }, by decide, by decide⟩,
   by decide⟩

/-! ## Claim C7 -/

/-- C7: `Library.lend_book` raises `BookNotFoundError` iff the isbn is not
in the catalog, raises `BookNotAvailableError` iff the book exists with
`available_copies ≤ 0`, and whenever it raises, the lend leaves the library
state (all counters and every reservation queue) unchanged. -/
theorem lend_book_error_spec (lib : Library) (isbn uid : String) (now : Datetime) :
    (Library.lend_book lib isbn uid now = .error .bookNotFound ↔
      lookupA lib.books isbn = none) ∧
    (Library.lend_book lib isbn uid now = .error .bookNotAvailable ↔
      ∃ b, lookupA lib.books isbn = some b ∧ b.available_copies ≤ 0) ∧
    (∀ e, Library.lend_book lib isbn uid now = .error e →
      applyOp lib (.lendBook isbn uid now) = (lib, [])) := by
  rcases hcase : lookupA lib.books isbn with _ | book
  · refine ⟨by simp [Library.lend_book, hcase], by simp [Library.lend_book, hcase], ?_⟩
    intro e he
    simp [applyOp, Library.lend_book, hcase]
  · by_cases h1 : book.available_copies ≤ 0
    · have hred : Library.lend_book lib isbn uid now = .error .bookNotAvailable := by
        simp [Library.lend_book, hcase, h1]
      refine ⟨by simp [hred], ?_, ?_⟩
      · simp only [hred]
        constructor
        · intro _
          exact ⟨book, rfl, h1⟩
        · intro _
          simp
      · intro e he
        simp [applyOp, hred]
    · have hred : Library.lend_book lib isbn uid now
          = .ok ({ books := updateA decAvail lib.books isbn, reservations := lib.reservations }, addDays now 14) := by
        simp [Library.lend_book, hcase, h1]
      refine ⟨by simp [hred], ?_, ?_⟩
      · simp only [hred]
        constructor
        · intro hl
          exact absurd hl (by simp)
        · rintro ⟨b, hbe, hb0⟩
          obtain rfl := Option.some.inj hbe
          exact absurd hb0 h1
      · intro e he
        rw [hred] at he
        exact absurd he (by simp)

/-- Witness for C7: lending an isbn absent from the empty library raises
`BookNotFoundError` and leaves the library unchanged. -/
theorem lend_book_error_spec_witness :
    Library.lend_book emptyLibrary "000" "u1" sampleNow = .error .bookNotFound ∧
    applyOp emptyLibrary (.lendBook "000" "u1" sampleNow) = (emptyLibrary, []) :=
  ⟨((lend_book_error_spec emptyLibrary "000" "u1" sampleNow).1).mpr (by decide),
   (lend_book_error_spec emptyLibrary "000" "u1" sampleNow).2.2 .bookNotFound
     (((lend_book_error_spec emptyLibrary "000" "u1" sampleNow).1).mpr (by decide))⟩

/-! ## Claim C9 -/

/-- C9: a logged-in user already holding `default_borrow_limit = 5` (or
more) borrowed books cannot lend: `LibrarySystem.lend_book` reports
`UserLimitExceededError` before calling into the library, and the catalog,
the reservation queues, and the user's `borrowed_books` are all returned
unchanged. -/
theorem borrow_limit_blocks_lend (lib : Library) (u : User) (isbn : String)
    (now : Datetime) (h : default_borrow_limit ≤ u.borrowed_books.length) :
    LibrarySystem.lend_book lib u isbn now = (lib, u, .error .userLimitExceeded) := by
  simp [LibrarySystem.lend_book, h]

/-- Witness for C9: `maxedUser` holds five borrowed books, so the lend of
an available title is refused with everything unchanged. -/
theorem borrow_limit_blocks_lend_witness :
    default_borrow_limit ≤ maxedUser.borrowed_books.length ∧
    LibrarySystem.lend_book sampleLib maxedUser "9780451524935" sampleNow
      = (sampleLib, maxedUser, .error .userLimitExceeded) :=
  ⟨by decide,
   borrow_limit_blocks_lend sampleLib maxedUser "9780451524935" sampleNow (by decide)⟩

/-! ## Claim C5 -/

/-- C5: when the isbn is in the catalog with a positive available count and
the current user is under the borrow limit, the lend succeeds:
exactly that book's `available_copies` drops by one (its `total_copies` and
every other catalog entry untouched, queues untouched), and the returned
due date — exactly 14 days after the lending instant — is recorded under
that isbn in the user's `borrowed_books`. -/
theorem lend_book_success_spec (lib : Library) (u : User) (isbn : String)
    (now : Datetime) (book : Book)
    (hb : lookupA lib.books isbn = some book)
    (ha : 0 < book.available_copies)
    (hl : u.borrowed_books.length < default_borrow_limit) :
    ∃ lib' u',
      LibrarySystem.lend_book lib u isbn now = (lib', u', .ok (addDays now 14)) ∧
      lookupA lib'.books isbn = some (decAvail book) ∧
      (∀ j, j ≠ isbn → lookupA lib'.books j = lookupA lib.books j) ∧
      lib'.reservations = lib.reservations ∧
      lookupA u'.borrowed_books isbn = some (addDays now 14) ∧
      u'.user_id = u.user_id := by
  have hnl : ¬ default_borrow_limit ≤ u.borrowed_books.length := not_le.mpr hl
  have hna : ¬ book.available_copies ≤ 0 := not_le.mpr ha
  have hlend : Library.lend_book lib isbn u.user_id now
      = .ok ({ lib with books := updateA decAvail lib.books isbn }, addDays now 14) := by
    simp [Library.lend_book, hb, hna]
  refine ⟨{ lib with books := updateA decAvail lib.books isbn },
    { u with borrowed_books := setA u.borrowed_books isbn (addDays now 14) },
    ?_, ?_, ?_, rfl, ?_, rfl⟩
  · simp [LibrarySystem.lend_book, hnl, hlend]
  · simp [lookupA_updateA, hb]
  · intro j hj
    simp [lookupA_updateA, hj]
  · simp [lookupA_setA]

/-- Witness for C5 at `sampleLib` (one available copy) and `sampleUser`
(nothing borrowed). -/
theorem lend_book_success_spec_witness :
    ∃ lib' u',
      LibrarySystem.lend_book sampleLib sampleUser "9780451524935" sampleNow
        = (lib', u', .ok (addDays sampleNow 14)) ∧
      lookupA lib'.books "9780451524935" = some (decAvail sampleBook) ∧
      (∀ j, j ≠ "9780451524935" →
        lookupA lib'.books j = lookupA sampleLib.books j) ∧
      lib'.reservations = sampleLib.reservations ∧
      lookupA u'.borrowed_books "9780451524935" = some (addDays sampleNow 14) ∧
      u'.user_id = sampleUser.user_id :=
  lend_book_success_spec sampleLib sampleUser "9780451524935" sampleNow sampleBook
    (by decide) (by decide) (by decide)

/-! ## Claim C6 -/

/-- The fine printed by `Library.return_book` is determined by the user's
recorded due date: this lemma extracts backend.py lines 115-120. -/
theorem return_book_fine {lib : Library} {isbn : String} {u : User} {rd : Datetime}
    {lib' : Library} {fine : Option Int} {ntf : Option String}
    (h : Library.return_book lib isbn u (some rd) = .ok (lib', fine, ntf)) :
    fine = match lookupA u.borrowed_books isbn with
      | none => none
      | some due => if due.day < rd.day then some ((rd.day - due.day) * 1) else none := by
  rcases hcase : lookupA lib.books isbn with _ | book
  · simp [Library.return_book, hcase] at h
  · rcases hq : resLookupL lib isbn with _ | ⟨nu, rest⟩ <;>
      simp only [Library.return_book, hcase, hq] at h <;>
      simp only [Res.ok.injEq, Prod.mk.injEq] at h <;>
      exact h.2.1.symm

/-- C6: on return of a catalog book with an explicit return date, a fine is
reported exactly when the user's recorded due date for that isbn is
strictly before the return date (comparing calendar days), and it equals
the days late times one dollar; no fine is reported when the return is on
time or no due date is recorded. -/
theorem return_fine_spec (lib : Library) (isbn : String) (u : User) (rd : Datetime)
    (book : Book) (hb : lookupA lib.books isbn = some book) :
    ∃ lib' fine ntf,
      Library.return_book lib isbn u (some rd) = .ok (lib', fine, ntf) ∧
      (∀ due, lookupA u.borrowed_books isbn = some due → due.day < rd.day →
        fine = some ((rd.day - due.day) * 1)) ∧
      (∀ due, lookupA u.borrowed_books isbn = some due → rd.day ≤ due.day →
        fine = none) ∧
      (lookupA u.borrowed_books isbn = none → fine = none) := by
  have hsucc : ∃ lib' fine ntf,
      Library.return_book lib isbn u (some rd) = .ok (lib', fine, ntf) := by
    rcases hq : resLookupL lib isbn with _ | ⟨nu, rest⟩ <;>
      simp [Library.return_book, hb, hq]
  obtain ⟨lib', fine, ntf, hret⟩ := hsucc
  have hfine := return_book_fine hret
  refine ⟨lib', fine, ntf, hret, ?_, ?_, ?_⟩
  · intro due hdue hlt
    rw [hfine, hdue]
    simp [hlt]
  · intro due hdue hge
    rw [hfine, hdue]
    simp [not_lt.mpr hge]
  · intro hnone
    rw [hfine, hnone]

/-- Witness for C6: `borrowerUser` returns `sampleBook` three days late and
is fined three dollars. -/
theorem return_fine_spec_witness :
    ∃ lib' fine ntf,
      Library.return_book sampleLib "9780451524935" borrowerUser (some lateNow)
        = .ok (lib', fine, ntf) ∧
      fine = some 3 := by
  obtain ⟨lib', fine, ntf, hret, hlate, _, _⟩ :=
    return_fine_spec sampleLib "9780451524935" borrowerUser lateNow sampleBook
      (by decide)
  refine ⟨lib', fine, ntf, hret, ?_⟩
  have := hlate (addDays sampleNow 14) (by decide) (by decide)
  simpa using this

/-! ## Claim C8 -/

/-- C8: listing and genre filtering show exactly the available books:
iterating a `Library` yields exactly the catalog books with
`available_copies > 0`, and the genre filter maps each genre to exactly
the catalog books of that genre with `available_copies > 0`; in
particular a book with zero available copies appears in neither. -/
theorem listing_filters_available_books (lib : Library) (b : Book) (g : String) :
    (b ∈ iterBooks lib ↔
      b ∈ lib.books.map Prod.snd ∧ 0 < b.available_copies) ∧
    (b ∈ filter_by_genre lib g ↔
      b ∈ lib.books.map Prod.snd ∧ b.genre = g ∧ 0 < b.available_copies) := by
  constructor
  · simp [iterBooks, List.mem_filter]
  · simp only [filter_by_genre, List.mem_filter, decide_eq_true_eq]
    tauto

/-! ## Claim C4 -/

/-- C4 (code bug): the CLI and GUI return paths are not equivalent.  At
`sampleLib` (the isbn is in the catalog, one copy available) with
`sampleUser` (who never borrowed it), the CLI `LibrarySystem.return_book`
leaves library and user unchanged, but the GUI `MainWidget._return_book`
calls the backend before `del borrowed_books[isbn]` raises `KeyError`, so
the book's `available_copies` is bumped to 2 (above `total_copies = 1`). -/
theorem gui_cli_return_divergence :
    LibrarySystem.return_book sampleLib sampleUser "9780451524935" sampleNow
      = (sampleLib, sampleUser) ∧
    (MainWidget.return_book sampleLib sampleUser "9780451524935" sampleNow).1
      ≠ sampleLib ∧
    lookupA (MainWidget.return_book sampleLib sampleUser
        "9780451524935" sampleNow).1.books "9780451524935"
      = some (incAvail sampleBook) := by decide

/-! ## Claim C10 -/

/-- C10: `Library.search_by_title` returns the `Book` records whose title
contains the search term case-insensitively whenever that list is
non-empty, and otherwise returns the `difflib` close matches — a list of
title STRINGS drawn from the catalog titles, so for some inputs the result
elements are plain strings rather than `Book` records. -/
theorem search_by_title_spec (lib : Library) (term : String) :
    (matchingTitles lib term ≠ [] →
      search_by_title lib term = Sum.inl (matchingTitles lib term)) ∧
    (matchingTitles lib term = [] →
      search_by_title lib term = Sum.inr (get_close_matches term (titleList lib))) ∧
    (∀ b, b ∈ matchingTitles lib term ↔
      b ∈ lib.books.map Prod.snd ∧
        containsSub (lowerChars term) (lowerChars b.title) = true) ∧
    (∀ s, s ∈ get_close_matches term (titleList lib) → s ∈ titleList lib) := by
  refine ⟨?_, ?_, ?_, ?_⟩
  · intro hne
    simp [search_by_title, List.isEmpty_eq_true, hne]
  · intro heq
    simp [search_by_title, heq]
  · intro b
    simp [matchingTitles, List.mem_filter]
  · intro s hs
    simp only [get_close_matches] at hs
    rcases List.mem_map.mp hs with ⟨p, hp, rfl⟩
    have hp2 := List.take_subset _ _ hp
    have hp3 := (List.perm_insertionSort scoredGE _).mem_iff.mp hp2
    rcases List.mem_filterMap.mp hp3 with ⟨x, hx, hfx⟩
    split_ifs at hfx
    obtain rfl := Option.some.inj hfx
    exact hx

/-- Witness for C10: searching `sampleLib` (whose only title is "1984")
for "1985" has no substring match, so the result is the `inr` list of
close-matching title strings, and "1984" — drawn from the catalog title
list — is one of them. -/
theorem search_by_title_spec_witness :
    search_by_title sampleLib "1985"
        = Sum.inr (get_close_matches "1985" (titleList sampleLib)) ∧
    get_close_matches "1985" (titleList sampleLib) = ["1984"] ∧
    "1984" ∈ titleList sampleLib :=
  ⟨(search_by_title_spec sampleLib "1985").2.1 (by decide),
   by with_unfolding_all decide,
   (search_by_title_spec sampleLib "1985").2.2.2 "1984" (by with_unfolding_all decide)⟩
